import Mathlib

/-
Verification of the TaskHarvester extraction pipeline.

Shallow embedding of:
  - backend/src/services/ai_processor_simple.py   (the AIProcessor imported by
    main.py / email_processor.py / ai_test.py, i.e. the live pipeline)
  - backend/src/services/ai_processor.py          (the alternative processor,
    needed for the cache round-trip claim)
  - backend/src/utils/cache.py                    (CacheManager)

Modelling conventions:
  - Python/JSON floats are modelled as exact rationals (the decoded decimal
    literals); non-finite literals (inf, nan) and digit underscores are
    outside the model.
  - A Python exception escaping a function is modelled by Except.error with
    the exception class (PyErr); `except (json.JSONDecodeError, KeyError,
    ValueError)` handlers are modelled by mapping those errors back to ok.
  - Strings are Unicode; str.strip() / str.split() whitespace is modelled by
    the ASCII whitespace set Python uses for ASCII text.
-/

namespace TaskHarvester

/-! ### Characters and Python-style string helpers -/

def lbrace : Char := Char.ofNat 123
def rbrace : Char := Char.ofNat 125
def quoteChar : Char := Char.ofNat 34
def backslashChar : Char := Char.ofNat 92

/-- Whitespace recognised by Python `str.strip()` / `str.split()` on ASCII
text: space, tab, newline, carriage return, vertical tab, form feed. -/
def isPyWs (c : Char) : Bool :=
  c == ' ' || c == Char.ofNat 9 || c == Char.ofNat 10 || c == Char.ofNat 13
    || c == Char.ofNat 11 || c == Char.ofNat 12

/-- `str.strip()` on a character list: drop leading and trailing whitespace. -/
def pyStripL (cs : List Char) : List Char :=
  ((cs.dropWhile isPyWs).reverse.dropWhile isPyWs).reverse

/-- Python `str.strip()`. -/
def pyStrip (s : String) : String :=
  String.mk (pyStripL s.data)

/-- Python `str.lower()` (ASCII; all keyword matching in the source is ASCII). -/
def pyLower (s : String) : String :=
  String.mk (s.data.map Char.toLower)

/-- `str.split()` with no arguments: maximal runs of non-whitespace. -/
def pyWordsAux : List Char → List Char → List (List Char)
  | [], acc => if acc.isEmpty then [] else [acc.reverse]
  | c :: cs, acc =>
    if isPyWs c then
      if acc.isEmpty then pyWordsAux cs [] else acc.reverse :: pyWordsAux cs []
    else
      pyWordsAux cs (c :: acc)

/-- `len(content.split())`: the number of whitespace-separated words. -/
def wordCount (s : String) : Nat :=
  (pyWordsAux s.data []).length

/-- Does `needle` occur at the start of `hay`? -/
def startsWithL : List Char → List Char → Bool
  | n :: ns, h :: hs => if n == h then startsWithL ns hs else false
  | needle, _ => needle.isEmpty

/-- Python `needle in hay` substring containment. -/
def isSubstrL (needle : List Char) : List Char → Bool
  | [] => startsWithL needle []
  | b :: bs => startsWithL needle (b :: bs) || isSubstrL needle bs

/-- Python `needle in hay` on strings. -/
def pyContains (hay needle : String) : Bool :=
  isSubstrL needle.data hay.data

/-! ### The Python/JSON value model -/

/-- A decoded JSON value, which is also the Python value a `json.loads` call
produces (dict modelled as an association list in insertion order, duplicate
keys resolved last-wins as in CPython). -/
inductive Json where
  | null
  | bool (b : Bool)
  | num (q : ℚ)
  | str (s : String)
  | arr (elems : List Json)
  | obj (fields : List (String × Json))

/-- Python exception classes that the embedded code can raise. -/
inductive PyErr where
  | typeError
  | valueError
  | keyError
  | attributeError
deriving DecidableEq

/-- Last-wins association lookup: CPython dict semantics for the duplicate
keys `json.loads` may feed it. -/
def lookupLast (fields : List (String × Json)) (k : String) : Option Json :=
  match fields with
  | [] => none
  | (k0, v0) :: rest =>
    match lookupLast rest k with
    | some v => some v
    | none => if k0 == k then some v0 else none

/-- `dict.get(k, d)` on a decoded JSON object. -/
def jGetD (fields : List (String × Json)) (k : String) (d : Json) : Json :=
  (lookupLast fields k).getD d

/-- Python truthiness of a decoded JSON value. -/
def pyTruthy : Json → Bool
  | .null => false
  | .bool b => b
  | .num q => !(q == 0)
  | .str s => !(s == "")
  | .arr xs => !xs.isEmpty
  | .obj fs => !fs.isEmpty

/-- Python `v == "null"` for a decoded JSON value `v`. -/
def isStrLitNull : Json → Bool
  | .str s => s == "null"
  | _ => false

/-- `value.strip()`: only str has `.strip`; any other value raises
AttributeError. -/
def pyStripJson : Json → Except PyErr String
  | .str s => .ok (pyStrip s)
  | _ => .error .attributeError

/-- `dict.get(k, d)` where the receiver may be any value: a non-dict receiver
raises AttributeError. -/
def pyDictGetD (v : Json) (k : String) (d : Json) : Except PyErr Json :=
  match v with
  | .obj fs => .ok (jGetD fs k d)
  | _ => .error .attributeError

/-- `for x in v`: iteration over a decoded JSON value. Iterating a string
yields its characters, a dict its keys; null/bool/num raise TypeError. -/
def pyIterList : Json → Except PyErr (List Json)
  | .arr xs => .ok xs
  | .str s => .ok (s.data.map fun c => Json.str (String.singleton c))
  | .obj fs => .ok (fs.map fun p => Json.str p.1)
  | _ => .error .typeError

/-! ### Python `float(x)` coercion -/

def isDigit (c : Char) : Bool :=
  48 ≤ c.toNat && c.toNat ≤ 57

def digitVal (c : Char) : Nat :=
  c.toNat - 48

def digitsToNat (ds : List Char) : Nat :=
  ds.foldl (fun acc c => 10 * acc + digitVal c) 0

/-- Assemble a rational from sign, integer digits, fraction digits and a
(signed) decimal exponent: the exact value of the decimal literal. (Built
with `mkRat` on integer data so that concrete runs reduce.) -/
def mkDecimal (neg : Bool) (intDs fracDs : List Char) (ex : Int) : ℚ :=
  let mant : Int := (digitsToNat (intDs ++ fracDs) : Int)
  let mant : Int := if neg then -mant else mant
  match ex - (fracDs.length : Int) with
  | .ofNat k => mkRat (mant * ((10 ^ k : Nat) : Int)) 1
  | .negSucc k => mkRat mant (10 ^ (k + 1))

/-- Parse the exponent tail `[eE][+-]?digits` (already past the e/E). Returns
the signed exponent iff the remaining input is exactly that. -/
def parseExpTail (cs : List Char) : Option Int :=
  let (neg, rest) :=
    match cs with
    | c :: t => if c == '-' then (true, t) else if c == '+' then (false, t) else (false, cs)
    | [] => (false, cs)
  let ds := rest.takeWhile isDigit
  if ds.isEmpty || !(rest.dropWhile isDigit).isEmpty then none
  else some (if neg then -(digitsToNat ds : Int) else (digitsToNat ds : Int))

/-- The grammar of Python `float(string)` after stripping: `[+-]?` then either
`digits[.digits*]` or `.digits`, then an optional exponent. -/
def floatOfStrCore (cs : List Char) : Option ℚ :=
  let (neg, rest) :=
    match cs with
    | c :: t => if c == '-' then (true, t) else if c == '+' then (false, t) else (false, cs)
    | [] => (false, cs)
  let intDs := rest.takeWhile isDigit
  let afterInt := rest.dropWhile isDigit
  let (fracDs, afterFrac, dotted) :=
    match afterInt with
    | c :: t =>
      if c == '.' then (t.takeWhile isDigit, t.dropWhile isDigit, true)
      else ([], afterInt, false)
    | [] => ([], afterInt, false)
  if intDs.isEmpty && fracDs.isEmpty then none
  else
    match afterFrac with
    | [] => some (mkDecimal neg intDs fracDs 0)
    | c :: t =>
      if (c == 'e' || c == 'E') && (dotted || !intDs.isEmpty) then
        match parseExpTail t with
        | some ex => some (mkDecimal neg intDs fracDs ex)
        | none => none
      else none

/-- Python `float(s)` on a string: strip whitespace, then parse a decimal
literal; failure is a ValueError. (inf/nan literals are outside the model.) -/
def floatOfStr (s : String) : Option ℚ :=
  floatOfStrCore (pyStripL s.data)

/-- Python `float(x)` on a decoded JSON value: numbers pass through, booleans
coerce to 1/0, strings are parsed (ValueError on failure), and every other
type raises TypeError. -/
def pyFloat : Json → Except PyErr ℚ
  | .num q => .ok q
  | .bool b => .ok (if b then 1 else 0)
  | .str s =>
    match floatOfStr s with
    | some q => .ok q
    | none => .error .valueError
  | .null => .error .typeError
  | .arr _ => .error .typeError
  | .obj _ => .error .typeError

/-! ### A model of `json.loads` (strict mode, as the source uses it) -/

/-- JSON whitespace (the four characters `json.loads` skips). -/
def isJsonWs (c : Char) : Bool :=
  c == ' ' || c == Char.ofNat 9 || c == Char.ofNat 10 || c == Char.ofNat 13

def skipWs (cs : List Char) : List Char := cs.dropWhile isJsonWs

def hexVal (c : Char) : Option Nat :=
  let n := c.toNat
  if 48 ≤ n && n ≤ 57 then some (n - 48)       -- 0-9
  else if 97 ≤ n && n ≤ 102 then some (n - 87) -- a-f
  else if 65 ≤ n && n ≤ 70 then some (n - 55)  -- A-F
  else none

/-- Body of a JSON string literal (after the opening quote), building the
decoded characters; strict mode rejects raw control characters. -/
def parseJStrAux : List Char → List Char → Option (List Char × List Char)
  | [], _ => none
  | c :: rest, acc =>
    if c == quoteChar then some (acc.reverse, rest)
    else if c == backslashChar then
      match rest with
      | [] => none
      | e :: rest2 =>
        if e == quoteChar then parseJStrAux rest2 (quoteChar :: acc)
        else if e == backslashChar then parseJStrAux rest2 (backslashChar :: acc)
        else if e == '/' then parseJStrAux rest2 ('/' :: acc)
        else if e == 'n' then parseJStrAux rest2 (Char.ofNat 10 :: acc)
        else if e == 't' then parseJStrAux rest2 (Char.ofNat 9 :: acc)
        else if e == 'r' then parseJStrAux rest2 (Char.ofNat 13 :: acc)
        else if e == 'b' then parseJStrAux rest2 (Char.ofNat 8 :: acc)
        else if e == 'f' then parseJStrAux rest2 (Char.ofNat 12 :: acc)
        else if e == 'u' then
          match rest2 with
          | h1 :: h2 :: h3 :: h4 :: rest6 =>
            match hexVal h1, hexVal h2, hexVal h3, hexVal h4 with
            | some a, some b, some c3, some d =>
              parseJStrAux rest6 (Char.ofNat (((a * 16 + b) * 16 + c3) * 16 + d) :: acc)
            | _, _, _, _ => none
          | _ => none
        else none
    else if c.toNat < 32 then none
    else parseJStrAux rest (c :: acc)

/-- A JSON number at the current position: `-?(0|[1-9]\d*)(\.\d+)?([eE][+-]?\d+)?`,
longest match of that grammar; a malformed fraction/exponent tail is simply
left unconsumed (as the CPython regex does). -/
def parseJNum (cs : List Char) : Option (ℚ × List Char) :=
  let (neg, r1) :=
    match cs with
    | c :: t => if c == '-' then (true, t) else (false, cs)
    | [] => (false, cs)
  match r1 with
  | [] => none
  | c :: t =>
    if c == '0' then some (parseJNumTail neg ['0'] t)
    else if isDigit c then
      some (parseJNumTail neg (c :: t.takeWhile isDigit) (t.dropWhile isDigit))
    else none
where
  parseJNumTail (neg : Bool) (intDs : List Char) (r2 : List Char) : ℚ × List Char :=
    let (fracDs, r3) :=
      match r2 with
      | c :: t =>
        if c == '.' && !(t.takeWhile isDigit).isEmpty then
          (t.takeWhile isDigit, t.dropWhile isDigit)
        else ([], r2)
      | [] => ([], r2)
    let (ex, r4) :=
      match r3 with
      | c :: t =>
        if c == 'e' || c == 'E' then
          match t with
          | s :: t2 =>
            if s == '+' && !(t2.takeWhile isDigit).isEmpty then
              ((digitsToNat (t2.takeWhile isDigit) : Int), t2.dropWhile isDigit)
            else if s == '-' && !(t2.takeWhile isDigit).isEmpty then
              (-(digitsToNat (t2.takeWhile isDigit) : Int), t2.dropWhile isDigit)
            else if isDigit s then
              ((digitsToNat (t.takeWhile isDigit) : Int), t.dropWhile isDigit)
            else ((0 : Int), r3)
          | [] => ((0 : Int), r3)
        else ((0 : Int), r3)
      | [] => ((0 : Int), r3)
    (mkDecimal neg intDs fracDs ex, r4)

mutual

/-- One JSON value at the current position (whitespace already skipped by the
caller), fuel-bounded; the fuel passed in by `json_loads` always suffices. -/
def parseJVal : Nat → List Char → Option (Json × List Char)
  | 0, _ => none
  | _ + 1, [] => none
  | fuel + 1, c :: rest =>
    if c == quoteChar then
      (parseJStrAux rest []).map fun p => (Json.str (String.mk p.1), p.2)
    else if c == lbrace then parseJObj fuel (skipWs rest) []
    else if c == '[' then parseJArr fuel (skipWs rest) []
    else if startsWithL ['t', 'r', 'u', 'e'] (c :: rest) then
      some (Json.bool true, rest.drop 3)
    else if startsWithL ['f', 'a', 'l', 's', 'e'] (c :: rest) then
      some (Json.bool false, rest.drop 4)
    else if startsWithL ['n', 'u', 'l', 'l'] (c :: rest) then
      some (Json.null, rest.drop 3)
    else
      (parseJNum (c :: rest)).map fun p => (Json.num p.1, p.2)
termination_by structural fuel => fuel

/-- Object members after `{` (whitespace skipped): `acc` holds the fields
parsed so far, in order. -/
def parseJObj : Nat → List Char → List (String × Json) → Option (Json × List Char)
  | 0, _, _ => none
  | _ + 1, [], _ => none
  | fuel + 1, c :: rest, acc =>
    if c == rbrace && acc.isEmpty then some (Json.obj [], rest)
    else if c == quoteChar then
      match parseJStrAux rest [] with
      | none => none
      | some (key, r1) =>
        match skipWs r1 with
        | ':' :: r2 =>
          match parseJVal fuel (skipWs r2) with
          | none => none
          | some (v, r3) =>
            match skipWs r3 with
            | ',' :: r4 =>
              match skipWs r4 with
              | c2 :: r5 =>
                if c2 == quoteChar then
                  parseJObj fuel (c2 :: r5) (acc ++ [(String.mk key, v)])
                else none
              | [] => none
            | c2 :: r4 =>
              if c2 == rbrace then some (Json.obj (acc ++ [(String.mk key, v)]), r4)
              else none
            | [] => none
        | _ => none
    else none
termination_by structural fuel => fuel

/-- Array elements after `[` (whitespace skipped). -/
def parseJArr : Nat → List Char → List Json → Option (Json × List Char)
  | 0, _, _ => none
  | _ + 1, [], _ => none
  | fuel + 1, c :: rest, acc =>
    if c == ']' && acc.isEmpty then some (Json.arr [], rest)
    else
      match parseJVal fuel (c :: rest) with
      | none => none
      | some (v, r1) =>
        match skipWs r1 with
        | ',' :: r2 => parseJArr fuel (skipWs r2) (acc ++ [v])
        | c2 :: r2 =>
          if c2 == ']' then some (Json.arr (acc ++ [v]), r2)
          else none
        | [] => none
termination_by structural fuel => fuel

end

/-- `json.loads(s)`: parse one JSON document with nothing but whitespace
around it; `none` models `json.JSONDecodeError`. -/
def json_loads (s : String) : Option Json :=
  match parseJVal (2 * s.length + 8) (skipWs s.data) with
  | some (v, rest) => if (skipWs rest).isEmpty then some v else none
  | none => none

/-! ### Locating the JSON span in raw model output -/

/-- Index of the first occurrence of a character. -/
def firstIdxOf (c : Char) : List Char → Option Nat
  | [] => none
  | x :: t => if x == c then some 0 else (firstIdxOf c t).map (· + 1)

/-- Index of the last occurrence of a character. -/
def lastIdxOf (c : Char) (cs : List Char) : Option Nat :=
  (firstIdxOf c cs.reverse).map (fun k => cs.length - 1 - k)

/-- `re.search(r"\x7b.*\x7d", response, re.DOTALL)`: the leftmost-longest
match runs from the first brace-open to the last brace-close of the whole
text (the match exists iff the first brace-open lies strictly before the
last brace-close). -/
def findJsonSpanL (cs : List Char) : Option (List Char) :=
  match firstIdxOf lbrace cs, lastIdxOf rbrace cs with
  | some i, some j => if i < j then some ((cs.drop i).take (j - i + 1)) else none
  | _, _ => none

/-- The substring `json_match.group()` the parser feeds to `json.loads`. -/
def findJsonSpan (s : String) : Option String :=
  (findJsonSpanL s.data).map String.mk

/-- Modelled from the spec (§4.4 step 1), for comparison with the code:
"locate the first balanced JSON object substring within the raw text" —
from the first brace-open, the span closed by brace-depth counting. -/
def balancedSpanAux : Nat → List Char → List Char → Option (List Char)
  | _, _, [] => none
  | d, acc, c :: rest =>
    if c == lbrace then balancedSpanAux (d + 1) (c :: acc) rest
    else if c == rbrace then
      if d = 1 then some (c :: acc).reverse else balancedSpanAux (d - 1) (c :: acc) rest
    else balancedSpanAux d (c :: acc) rest

/-- Modelled from the spec (§4.4 step 1): the first balanced JSON object
substring of the text, if any. -/
def firstBalancedJsonObject (s : String) : Option String :=
  match s.data.dropWhile (· != lbrace) with
  | [] => none
  | c :: rest => (balancedSpanAux 1 [c] rest).map String.mk

/-! ### The live processor: `services/ai_processor_simple.py`

`main.py`, `email_processor.py` and `ai_test.py` import `AIProcessor` from
this module, so it is the extraction pipeline the application runs. -/

/-- The `ActionItem` dataclass of `ai_processor_simple.py`. The dataclass
performs no runtime type validation, so `deadline` holds whatever decoded
value survived the `!= "null"` check and `priority` holds whatever value
`item_data.get("priority", "medium")` produced. -/
structure ActionItem where
  task : String
  assignee : Option String
  deadline : Option Json
  priority : Json
  confidence : ℚ
  context : String
  source : String

/-- The `action_keywords` list in `extract_action_items`. -/
def action_keywords : List String :=
  ["action required", "follow up", "deadline", "due date", "please",
   "need to", "should", "must", "will you", "can you", "todo", "task",
   "assignment", "complete", "deliver", "prepare", "schedule", "meeting",
   "review", "send", "submit", "finish", "update"]

/-- `sum(1 for keyword in action_keywords if keyword in content_lower)`. -/
def keywordCount (content : String) : Nat :=
  (action_keywords.filter fun k => pyContains (pyLower content) k).length

/-- The body of the `for item_data in data.get("action_items", [])` loop for
one candidate entry: `ok none` models `continue`/the final validation
rejecting the entry, `ok (some it)` models `action_items.append(...)`, and
`error` models an exception escaping the loop (e.g. TypeError from
`float(None)` or AttributeError from `.strip()` on a non-string). -/
def processEntry (e : Json) (source_type source_id : String) :
    Except PyErr (Option ActionItem) :=
  match e with
  | .obj fs =>
    if pyTruthy (jGetD fs "task" .null) then
      -- deadline is computed before the constructor call and cannot raise
      let deadlineVal := jGetD fs "deadline" .null
      let deadline : Option Json :=
        if pyTruthy deadlineVal && !isStrLitNull deadlineVal then some deadlineVal
        else none
      -- constructor arguments evaluate in source order
      match pyStripJson (jGetD fs "task" (.str "")) with
      | .error pe => .error pe
      | .ok task =>
        match pyStripJson (jGetD fs "assignee" (.str "")) with
        | .error pe => .error pe
        | .ok asg =>
          match pyFloat (jGetD fs "confidence" (.num 0)) with
          | .error pe => .error pe
          | .ok conf =>
            match pyStripJson (jGetD fs "context" (.str "")) with
            | .error pe => .error pe
            | .ok ctx =>
              let it : ActionItem :=
                { task := task
                  assignee := if asg == "" then none else some asg
                  deadline := deadline
                  priority := jGetD fs "priority" (.str "medium")
                  confidence := conf
                  context := ctx
                  source := source_type ++ ":" ++ source_id }
              if decide (0 ≤ conf) && decide (conf ≤ 1) && !(task == "") then
                .ok (some it)
              else
                .ok none
    else .ok none
  | _ => .error .attributeError

/-- The whole loop: entries are processed left to right; an exception in
one entry aborts the loop (items appended so far are lost). -/
def processEntries (es : List Json) (source_type source_id : String) :
    Except PyErr (List ActionItem) :=
  match es with
  | [] => .ok []
  | e :: rest =>
    match processEntry e source_type source_id with
    | .error pe => .error pe
    | .ok r =>
      match processEntries rest source_type source_id with
      | .error pe => .error pe
      | .ok out =>
        .ok (match r with | some it => it :: out | none => out)

/-- `_parse_llm_response` without its `except` clause: the raw outcome of the
try-block (`error` = an exception raised inside it). -/
def parseCore (response source_type source_id : String) :
    Except PyErr (List ActionItem) :=
  match findJsonSpan response with
  | none => .ok []                     -- "No JSON found in response"
  | some s =>
    match json_loads s with
    | none => .error .valueError       -- json.JSONDecodeError (⊂ ValueError)
    | some data =>
      match pyDictGetD data "action_items" (.arr []) with
      | .error pe => .error pe
      | .ok itemsVal =>
        match pyIterList itemsVal with
        | .error pe => .error pe
        | .ok es => processEntries es source_type source_id

/-- `AIProcessor._parse_llm_response`: the try-block result with
`except (json.JSONDecodeError, KeyError, ValueError): return []` applied;
TypeError/AttributeError still escape to the caller. -/
def parse_llm_response (response source_type source_id : String) :
    Except PyErr (List ActionItem) :=
  match parseCore response source_type source_id with
  | .error .valueError => .ok []
  | .error .keyError => .ok []
  | r => r

/-- The observable outcome of one `extract_action_items` call. The model
backend is external: `modelResponse` is the text it would return, `none`
modelling `ollama_client.generate` raising. `calledModel` records whether
control reached the generate call. -/
structure SimpleTrace where
  result : List ActionItem
  calledModel : Bool

/-- `AIProcessor.extract_action_items` of `ai_processor_simple.py`:
initialization gate, empty-content gate, keyword relevance gate, model call,
parse, and the confidence-threshold filter. The broad
`except Exception: return []` converts any escaping exception to `[]`. -/
def extract_trace (isInitialized : Bool) (threshold : ℚ) (content : String)
    (modelResponse : Option String) (source_type source_id : String) :
    SimpleTrace :=
  if !isInitialized then ⟨[], false⟩
  else if pyStrip content == "" then ⟨[], false⟩
  else if keywordCount content == 0 && decide (50 < wordCount content) then ⟨[], false⟩
  else
    match modelResponse with
    | none => ⟨[], true⟩               -- generate raised; except Exception
    | some resp =>
      match parse_llm_response resp source_type source_id with
      | .error _ => ⟨[], true⟩         -- except Exception
      | .ok items => ⟨items.filter fun it => decide (threshold ≤ it.confidence), true⟩

/-- The list `extract_action_items` returns to its caller. -/
def extract_action_items (isInitialized : Bool) (threshold : ℚ) (content : String)
    (modelResponse : Option String) (source_type source_id : String) :
    List ActionItem :=
  (extract_trace isInitialized threshold content modelResponse source_type source_id).result

/-! ### The alternative processor: `services/ai_processor.py` with
`utils/cache.py`

This variant is the one with the extraction cache (claim C7). Its spaCy /
sentence-transformer models and the prompt are external collaborators that
do not influence the returned value once the model response is fixed, so
they are not modelled; `now` stands for `datetime.now()`. -/

/-- The `Priority` str-enum of `models/action_item.py` (low/medium/high). -/
inductive Priority where
  | low
  | medium
  | high
deriving DecidableEq

/-- A Python `datetime` as `_parse_deadline` produces it: either
`datetime.strptime` of a matched date pattern, or `datetime.now()` plus a
day offset (values kept symbolic; no claim computes with them). -/
inductive PyDatetime where
  | fromPattern (y m d : Nat)
  | fromNow (now : Nat) (days : Nat)
deriving DecidableEq

def isLeapYear (y : Nat) : Bool :=
  (y % 4 == 0 && y % 100 != 0) || y % 400 == 0

def daysInMonth (y m : Nat) : Nat :=
  if m == 1 || m == 3 || m == 5 || m == 7 || m == 8 || m == 10 || m == 12 then 31
  else if m == 4 || m == 6 || m == 9 || m == 11 then 30
  else if isLeapYear y then 29
  else 28

/-- `datetime.strptime` date validation: ValueError outside these bounds. -/
def isValidDate (y m d : Nat) : Bool :=
  1 ≤ y && 1 ≤ m && m ≤ 12 && 1 ≤ d && d ≤ daysInMonth y m

/-- `\d\x7b1,2\x7d` followed by a separator: greedy two digits, else one.
(The greedy choice is forced — a digit is never the separator — so the
regex needs no further backtracking here.) -/
def num12Then (sep : Char) : List Char → Option (Nat × List Char)
  | a :: b :: c :: rest =>
    if isDigit a && isDigit b && c == sep then
      some (10 * digitVal a + digitVal b, rest)
    else if isDigit a && b == sep then some (digitVal a, c :: rest)
    else none
  | [a, b] => if isDigit a && b == sep then some (digitVal a, []) else none
  | _ => none

def num2 : List Char → Option (Nat × List Char)
  | a :: b :: rest =>
    if isDigit a && isDigit b then some (10 * digitVal a + digitVal b, rest) else none
  | _ => none

def num4 (cs : List Char) : Option (Nat × List Char) :=
  match num2 cs with
  | some (hi, r1) =>
    match num2 r1 with
    | some (lo, r2) => some (100 * hi + lo, r2)
    | none => none
  | none => none

/-- The pattern `(\d\x7b1,2\x7d/\d\x7b1,2\x7d/\d\x7b4\x7d)` anchored at the
current position: MM/DD/YYYY. -/
def matchMDYAt (cs : List Char) : Option (Nat × Nat × Nat) :=
  match num12Then '/' cs with
  | none => none
  | some (m, r1) =>
    match num12Then '/' r1 with
    | none => none
    | some (d, r2) =>
      match num4 r2 with
      | none => none
      | some (y, _) => some (m, d, y)

/-- The pattern `(\d\x7b4\x7d-\d\x7b2\x7d-\d\x7b2\x7d)` anchored at the
current position: YYYY-MM-DD. -/
def matchYMDAt (cs : List Char) : Option (Nat × Nat × Nat) :=
  match num4 cs with
  | none => none
  | some (y, r1) =>
    match r1 with
    | c :: r2 =>
      if c == '-' then
        match num2 r2 with
        | none => none
        | some (m, r3) =>
          match r3 with
          | c2 :: r4 =>
            if c2 == '-' then
              match num2 r4 with
              | none => none
              | some (d, _) => some (y, m, d)
            else none
          | [] => none
      else none
    | [] => none

/-- `re.search`: leftmost match of an anchored matcher. -/
def searchPat (pat : List Char → Option (Nat × Nat × Nat)) :
    List Char → Option (Nat × Nat × Nat)
  | [] => none
  | c :: rest =>
    match pat (c :: rest) with
    | some x => some x
    | none => searchPat pat rest

/-- `AIProcessor._parse_deadline` of `ai_processor.py`: try the MM/DD/YYYY
pattern, then YYYY-MM-DD (an invalid date continues to the next attempt,
mirroring `except ValueError: continue`), then the relative phrases
"tomorrow" / "next week"; otherwise None. A truthy non-string raises
TypeError inside `re.search`. -/
def parse_deadline (now : Nat) (v : Json) : Except PyErr (Option PyDatetime) :=
  if !pyTruthy v then .ok none
  else
    match v with
    | .str s =>
      let cs := s.data
      let mdy : Option PyDatetime :=
        match searchPat matchMDYAt cs with
        | some (m, d, y) =>
          if isValidDate y m d then some (.fromPattern y m d) else none
        | none => none
      match mdy with
      | some dt => .ok (some dt)
      | none =>
        let ymd : Option PyDatetime :=
          match searchPat matchYMDAt cs with
          | some (y, m, d) =>
            if isValidDate y m d then some (.fromPattern y m d) else none
          | none => none
        match ymd with
        | some dt => .ok (some dt)
        | none =>
          if pyContains (pyLower s) "tomorrow" then .ok (some (.fromNow now 1))
          else if pyContains (pyLower s) "next week" then .ok (some (.fromNow now 7))
          else .ok none
    | _ => .error .typeError

/-- `AIProcessor._resolve_assignee_email`: the name when truthy, else None. -/
def resolve_assignee_email (v : Json) : Option Json :=
  if pyTruthy v then some v else none

/-- The `ActionItemCreate` pydantic model (`models/action_item.py`) after
successful validation. `source_id`/`source_type` keep their defaults: the
parser never sets them. -/
structure ItemCreate where
  task_description : String
  assignee_email : Option String
  deadline : Option PyDatetime
  priority : Priority
  confidence_score : ℚ
  context : Option String
deriving DecidableEq

/-- Constructing `ActionItemCreate(...)`: pydantic field validation.
`task_description` must be a string of length in [1, 1000]; optional string
fields accept None or str; `priority` must be a `Priority` value;
`confidence_score` must lie in [0.0, 1.0]. A failure raises
ValidationError, a ValueError subclass. -/
def mkItemCreate (taskV : Json) (assigneeV : Option Json)
    (deadline : Option PyDatetime) (priorityV : Json) (conf : ℚ)
    (contextV : Json) : Except PyErr ItemCreate :=
  match taskV with
  | .str task =>
    if 1 ≤ task.length && task.length ≤ 1000 then
      match assigneeV with
      | none => mkRest task none deadline priorityV conf contextV
      | some (.str a) => mkRest task (some a) deadline priorityV conf contextV
      | some _ => .error .valueError
    else .error .valueError
  | _ => .error .valueError
where
  mkRest (task : String) (assignee : Option String) (deadline : Option PyDatetime)
      (priorityV : Json) (conf : ℚ) (contextV : Json) : Except PyErr ItemCreate :=
    let pri : Option Priority :=
      match priorityV with
      | .str s =>
        if s == "low" then some .low
        else if s == "medium" then some .medium
        else if s == "high" then some .high
        else none
      | _ => none
    match pri with
    | none => .error .valueError
    | some p =>
      if decide (0 ≤ conf) && decide (conf ≤ 1) then
        match contextV with
        | .str c => .ok ⟨task, assignee, deadline, p, conf, some c⟩
        | .null => .ok ⟨task, assignee, deadline, p, conf, none⟩
        | _ => .error .valueError
      else .error .valueError

/-- One entry of the `for item_data in data.get('action_items', [])` loop of
`ai_processor.py`: deadline handling, `ActionItemCreate` construction, then
the `task_description and confidence_score >= self.confidence_threshold`
append condition (threshold hardcoded to 0.7 in `__init__`). -/
def processEntryFull (now : Nat) (e : Json) : Except PyErr (Option ItemCreate) :=
  match e with
  | .obj fs =>
    let dv := jGetD fs "deadline" .null
    match (if pyTruthy dv then parse_deadline now dv else .ok none) with
    | .error pe => .error pe
    | .ok deadline =>
      let taskV := jGetD fs "task" (.str "")
      let asgV := resolve_assignee_email (jGetD fs "assignee" (.str ""))
      let priV := jGetD fs "priority" (.str "medium")
      match pyFloat (jGetD fs "confidence" (.num 0)) with
      | .error pe => .error pe
      | .ok conf =>
        let ctxV := jGetD fs "context" (.str "")
        match mkItemCreate taskV asgV deadline priV conf ctxV with
        | .error pe => .error pe
        | .ok it =>
          if !(it.task_description == "") && decide (mkRat 7 10 ≤ it.confidence_score) then
            .ok (some it)
          else .ok none
  | _ => .error .attributeError

def processEntriesFull (now : Nat) (es : List Json) : Except PyErr (List ItemCreate) :=
  match es with
  | [] => .ok []
  | e :: rest =>
    match processEntryFull now e with
    | .error pe => .error pe
    | .ok r =>
      match processEntriesFull now rest with
      | .error pe => .error pe
      | .ok out => .ok (match r with | some it => it :: out | none => out)

/-- `ai_processor.py`'s `_parse_llm_response` try-block. -/
def parseFullCore (now : Nat) (response : String) : Except PyErr (List ItemCreate) :=
  match findJsonSpan response with
  | none => .ok []
  | some s =>
    match json_loads s with
    | none => .error .valueError
    | some data =>
      match pyDictGetD data "action_items" (.arr []) with
      | .error pe => .error pe
      | .ok itemsVal =>
        match pyIterList itemsVal with
        | .error pe => .error pe
        | .ok es => processEntriesFull now es

/-- `ai_processor.py`'s `_parse_llm_response` with its
`except (json.JSONDecodeError, KeyError, ValueError)` handler. -/
def parse_llm_response_full (now : Nat) (response : String) :
    Except PyErr (List ItemCreate) :=
  match parseFullCore now response with
  | .error .valueError => .ok []
  | .error .keyError => .ok []
  | r => r

/-- `AIProcessor._classify_relevance` keyword list (18 entries; no review /
send / submit / finish / update, unlike the simple processor). -/
def action_keywords_full : List String :=
  ["action required", "follow up", "deadline", "due date", "please",
   "need to", "should", "must", "will you", "can you", "todo", "task",
   "assignment", "complete", "deliver", "prepare", "schedule", "meeting"]

def keywordCountFull (content : String) : Nat :=
  (action_keywords_full.filter fun k => pyContains (pyLower content) k).length

/-- `AIProcessor._classify_relevance`: `min(count/5, 1)`, boosted by 1.2
(capped at 1) for meeting transcripts. -/
def classify_relevance (content source_type : String) : ℚ :=
  let base : ℚ := if decide (mkRat (keywordCountFull content) 5 ≤ 1) then
    mkRat (keywordCountFull content) 5 else 1
  if source_type == "meeting_transcript" then
    let boosted := base * mkRat 6 5
    if decide (boosted ≤ 1) then boosted else 1
  else base

/-! ### `utils/cache.py`: CacheManager, and the full extract orchestrator -/

def apos : Char := Char.ofNat 39

/-- Wrap in single quotes (Python repr of a string; embedded quotes in the
data never occur on the modelled paths). -/
def pyq (s : String) : String :=
  String.singleton apos ++ s ++ String.singleton apos

def hexDigit (n : Nat) : Char :=
  Char.ofNat (if n < 10 then 48 + n else 87 + n)

/-- JSON escaping of one character as `json.dumps` performs it
(`ensure_ascii` escaping of non-ASCII is outside the model; unused here). -/
def escapeJChar (c : Char) : List Char :=
  if c == quoteChar then [backslashChar, quoteChar]
  else if c == backslashChar then [backslashChar, backslashChar]
  else if c == Char.ofNat 10 then [backslashChar, 'n']
  else if c == Char.ofNat 9 then [backslashChar, 't']
  else if c == Char.ofNat 13 then [backslashChar, 'r']
  else if c == Char.ofNat 8 then [backslashChar, 'b']
  else if c == Char.ofNat 12 then [backslashChar, 'f']
  else if c.toNat < 32 then
    [backslashChar, 'u', '0', '0', hexDigit (c.toNat / 16), hexDigit (c.toNat % 16)]
  else [c]

/-- A JSON string literal for `s`. -/
def escapeJStr (s : String) : String :=
  String.singleton quoteChar ++ String.mk (s.data.map escapeJChar).flatten
    ++ String.singleton quoteChar

def joinSep (sep : String) : List String → String
  | [] => ""
  | [x] => x
  | x :: y :: rest => x ++ sep ++ joinSep sep (y :: rest)

/-- Python float repr for the confidence field of the object repr. (The
shortest-round-trip digits of CPython are outside the model; downstream
code only ever treats the whole repr as an opaque string.) -/
def floatRepr (q : ℚ) : String :=
  if q.den == 1 then toString q.num ++ ".0"
  else toString q.num ++ "/" ++ toString q.den

def priorityRepr : Priority → String
  | .low => "<Priority.LOW: " ++ pyq "low" ++ ">"
  | .medium => "<Priority.MEDIUM: " ++ pyq "medium" ++ ">"
  | .high => "<Priority.HIGH: " ++ pyq "high" ++ ">"

/-- `datetime` repr (abridged; opaque downstream). -/
def datetimeRepr : PyDatetime → String
  | .fromPattern y m d =>
    "datetime.datetime(" ++ toString y ++ ", " ++ toString m ++ ", " ++ toString d
      ++ ", 0, 0)"
  | .fromNow now days =>
    "datetime.datetime.now+" ++ toString now ++ "+" ++ toString days ++ "d"

def optReprStr : Option String → String
  | none => "None"
  | some s => pyq s

/-- `str(item)` for an `ActionItemCreate`: the pydantic repr, a plain string
listing the fields. `json.dumps(..., default=str)` falls back to this for
each non-serializable object. -/
def pyReprItemCreate (it : ItemCreate) : String :=
  "task_description=" ++ pyq it.task_description
    ++ " assignee_email=" ++ optReprStr it.assignee_email
    ++ " deadline=" ++ (match it.deadline with
      | none => "None"
      | some dt => datetimeRepr dt)
    ++ " priority=" ++ priorityRepr it.priority
    ++ " context=" ++ optReprStr it.context
    ++ " confidence_score=" ++ floatRepr it.confidence_score
    ++ " source_id=None source_type=None"

/-- `CacheManager._serialize_value` applied to the value the processor
actually stores, a list of `ActionItemCreate`: `json.dumps(value,
default=str)` serializes the list natively and replaces each
non-JSON-serializable element by `str(element)`. -/
def serialize_value_items (items : List ItemCreate) : String :=
  "[" ++ joinSep ", " (items.map fun it => escapeJStr (pyReprItemCreate it)) ++ "]"

/-- `CacheManager._deserialize_value`: `json.loads`, or the raw string when
decoding fails. -/
def deserialize_value (s : String) : Json :=
  (json_loads s).getD (Json.str s)

/-- The backing store (Redis or the in-process fallback dict): keys to
serialized strings. Entry expiry is not modelled — every claim about the
cache quantifies within the TTL window. -/
def CacheState : Type := List (String × String)

/-- `set`: last write wins. -/
def cacheSetRaw (st : CacheState) (k v : String) : CacheState := (k, v) :: st

def cacheGetRaw (st : CacheState) (k : String) : Option String :=
  match st with
  | [] => none
  | (k0, v0) :: rest => if k0 == k then some v0 else cacheGetRaw rest k

/-- `CacheManager.get`: fetch and deserialize; a falsy raw value (only the
empty string) is treated as a miss by the `if value:` guard. -/
def cacheGet (st : CacheState) (k : String) : Option Json :=
  match cacheGetRaw st k with
  | none => none
  | some raw => if raw == "" then none else some (deserialize_value raw)

/-- `_generate_content_hash`: `hashlib.md5(content).hexdigest()`. Modelled
as the identity on content: a deterministic digest of the exact input
string (collisions are outside the model). -/
def content_hash (content : String) : String := content

def get_model_output (st : CacheState) (h : String) : Option Json :=
  cacheGet st ("model_output:" ++ h)

def cache_model_output (st : CacheState) (h : String) (items : List ItemCreate) :
    CacheState :=
  cacheSetRaw st ("model_output:" ++ h) (serialize_value_items items)

/-- A value `extract_action_items` (full variant) can hand back: a live
`ActionItemCreate` object from a fresh parse, or whatever `json.loads`
rebuilt from the cache. -/
inductive PyObj where
  | item (it : ItemCreate)
  | raw (j : Json)

/-- A cached value returned verbatim, element-typed for the trace. Every
value this code writes is a JSON array, so the fallback branch is
unreachable on self-written entries. -/
def cachedReturn : Json → List PyObj
  | .arr xs => xs.map PyObj.raw
  | j => [PyObj.raw j]

/-- One full-variant `extract_action_items` call: returned value, resulting
cache, and whether the generate call was reached. -/
structure FullTrace where
  result : List PyObj
  cache : CacheState
  calledModel : Bool

/-- `AIProcessor.extract_action_items` of `ai_processor.py`: cache
consultation first, relevance gate (threshold 0.3), model call, parse,
confidence filter (0.7), cache write, return. spaCy entity extraction and
prompt construction only feed the external model and are not modelled. -/
def extract_action_items_full (cache : CacheState) (now : Nat)
    (content source_type : String) (modelResponse : Option String) :
    FullTrace :=
  let h := content_hash content
  let hit : Option Json :=
    match get_model_output cache h with
    | some v => if pyTruthy v then some v else none
    | none => none
  match hit with
  | some v => ⟨cachedReturn v, cache, false⟩
  | none =>
    if decide (classify_relevance content source_type < mkRat 3 10) then
      ⟨[], cache, false⟩
    else
      match modelResponse with
      | none => ⟨[], cache, true⟩
      | some resp =>
        match parse_llm_response_full now resp with
        | .error _ => ⟨[], cache, true⟩
        | .ok items =>
          let filtered := items.filter fun it => decide (mkRat 7 10 ≤ it.confidence_score)
          ⟨filtered.map PyObj.item, cache_model_output cache h filtered, true⟩

/-! ### Helper lemmas -/

theorem pyStripL_eq_rdrop (cs : List Char) :
    pyStripL cs = List.rdropWhile isPyWs (List.dropWhile isPyWs cs) := rfl

theorem pyStripL_idem (cs : List Char) : pyStripL (pyStripL cs) = pyStripL cs := by
  have key : ∀ l : List Char, List.dropWhile isPyWs l = l →
      List.dropWhile isPyWs (List.rdropWhile isPyWs l) = List.rdropWhile isPyWs l := by
    intro l hl
    cases hb : List.rdropWhile isPyWs l with
    | nil => simp
    | cons x t =>
      obtain ⟨s, hs⟩ := List.rdropWhile_prefix isPyWs l
      rw [hb] at hs
      have hpx : isPyWs x = false := by
        by_contra hc
        rw [Bool.not_eq_false] at hc
        rw [← hs, List.cons_append, List.dropWhile_cons, if_pos hc] at hl
        have hlen := congrArg List.length hl
        have hle := (List.dropWhile_sublist (l := t ++ s) (p := isPyWs)).length_le
        simp only [List.length_cons] at hlen
        omega
      rw [List.dropWhile_cons, hpx]
      simp
  rw [pyStripL_eq_rdrop, pyStripL_eq_rdrop,
    key _ (List.dropWhile_idempotent isPyWs cs), List.rdropWhile_idempotent]

theorem data_mk (l : List Char) : (String.mk l).data = l := rfl

theorem pyStrip_idem (s : String) : pyStrip (pyStrip s) = pyStrip s := by
  show String.mk (pyStripL (pyStripL s.data)) = String.mk (pyStripL s.data)
  rw [pyStripL_idem]

/-- A successful `.strip()` result is already stripped. -/
theorem pyStripJson_ok {v : Json} {t : String} (h : pyStripJson v = .ok t) :
    pyStrip t = t := by
  cases v with
  | str s =>
    simp only [pyStripJson, Except.ok.injEq] at h
    rw [← h, pyStrip_idem]
  | null => simp [pyStripJson] at h
  | bool b => simp [pyStripJson] at h
  | num q => simp [pyStripJson] at h
  | arr xs => simp [pyStripJson] at h
  | obj fs => simp [pyStripJson] at h

/-- Everything `processEntry` appends satisfies the per-record invariants:
trimmed nonempty task, in-range confidence, normalized assignee, and the
verbatim priority value. -/
theorem processEntry_ok_some {e : Json} {st sid : String} {it : ActionItem}
    (h : processEntry e st sid = .ok (some it)) :
    ∃ fs, e = Json.obj fs
      ∧ pyStrip it.task = it.task ∧ it.task ≠ ""
      ∧ 0 ≤ it.confidence ∧ it.confidence ≤ 1
      ∧ (it.assignee = none ∨ ∃ a, it.assignee = some a ∧ a ≠ "" ∧ pyStrip a = a)
      ∧ it.priority = jGetD fs "priority" (Json.str "medium") := by
  match e with
  | .null => simp [processEntry] at h
  | .bool _ => simp [processEntry] at h
  | .num _ => simp [processEntry] at h
  | .str _ => simp [processEntry] at h
  | .arr _ => simp [processEntry] at h
  | .obj fs =>
    refine ⟨fs, rfl, ?_⟩
    rw [processEntry] at h
    by_cases ht : pyTruthy (jGetD fs "task" Json.null) = true
    case neg => rw [if_neg ht] at h; simp at h
    case pos =>
    rw [if_pos ht] at h
    cases hTask : pyStripJson (jGetD fs "task" (Json.str "")) with
    | error pe => rw [hTask] at h; simp at h
    | ok task =>
    rw [hTask] at h
    cases hAsg : pyStripJson (jGetD fs "assignee" (Json.str "")) with
    | error pe => rw [hAsg] at h; simp at h
    | ok asg =>
    rw [hAsg] at h
    cases hConf : pyFloat (jGetD fs "confidence" (Json.num 0)) with
    | error pe => rw [hConf] at h; simp at h
    | ok conf =>
    rw [hConf] at h
    cases hCtx : pyStripJson (jGetD fs "context" (Json.str "")) with
    | error pe => rw [hCtx] at h; simp at h
    | ok ctx =>
    rw [hCtx] at h
    simp only [] at h
    by_cases hcond : (decide (0 ≤ conf) && decide (conf ≤ 1) && !(task == "")) = true
    case neg => rw [if_neg hcond] at h; simp at h
    case pos =>
    rw [if_pos hcond] at h
    simp only [Except.ok.injEq, Option.some.injEq] at h
    subst h
    simp only [Bool.and_eq_true, decide_eq_true_eq, Bool.not_eq_true',
      beq_eq_false_iff_ne, ne_eq] at hcond
    obtain ⟨⟨h0, h1⟩, hne⟩ := hcond
    refine ⟨pyStripJson_ok hTask, hne, h0, h1, ?_, rfl⟩
    by_cases ha : (asg == "") = true
    · exact Or.inl (by simp [ha])
    · refine Or.inr ⟨asg, by simp [ha], by simpa using ha, pyStripJson_ok hAsg⟩

/-- Inversion: a successful append determines the record from the entry. -/
theorem processEntry_build {fs : List (String × Json)} {st sid : String}
    {it : ActionItem} (h : processEntry (Json.obj fs) st sid = .ok (some it)) :
    ∃ task asg conf ctx,
      pyStripJson (jGetD fs "task" (Json.str "")) = .ok task
      ∧ pyStripJson (jGetD fs "assignee" (Json.str "")) = .ok asg
      ∧ pyFloat (jGetD fs "confidence" (Json.num 0)) = .ok conf
      ∧ pyStripJson (jGetD fs "context" (Json.str "")) = .ok ctx
      ∧ it = { task := task
               assignee := if asg == "" then none else some asg
               deadline := if pyTruthy (jGetD fs "deadline" Json.null)
                   && !isStrLitNull (jGetD fs "deadline" Json.null) then
                   some (jGetD fs "deadline" Json.null) else none
               priority := jGetD fs "priority" (Json.str "medium")
               confidence := conf
               context := ctx
               source := st ++ ":" ++ sid } := by
  rw [processEntry] at h
  by_cases ht : pyTruthy (jGetD fs "task" Json.null) = true
  case neg => rw [if_neg ht] at h; simp at h
  case pos =>
  rw [if_pos ht] at h
  cases hTask : pyStripJson (jGetD fs "task" (Json.str "")) with
  | error pe => rw [hTask] at h; simp at h
  | ok task =>
  rw [hTask] at h
  cases hAsg : pyStripJson (jGetD fs "assignee" (Json.str "")) with
  | error pe => rw [hAsg] at h; simp at h
  | ok asg =>
  rw [hAsg] at h
  cases hConf : pyFloat (jGetD fs "confidence" (Json.num 0)) with
  | error pe => rw [hConf] at h; simp at h
  | ok conf =>
  rw [hConf] at h
  cases hCtx : pyStripJson (jGetD fs "context" (Json.str "")) with
  | error pe => rw [hCtx] at h; simp at h
  | ok ctx =>
  rw [hCtx] at h
  simp only [] at h
  by_cases hcond : (decide (0 ≤ conf) && decide (conf ≤ 1) && !(task == "")) = true
  case neg => rw [if_neg hcond] at h; simp at h
  case pos =>
  rw [if_pos hcond] at h
  simp only [Except.ok.injEq, Option.some.injEq] at h
  exact ⟨task, asg, conf, ctx, rfl, rfl, rfl, rfl, h.symm⟩

theorem firstIdxOf_append_none {c : Char} {l1 : List Char} (l2 : List Char)
    (h : ∀ a ∈ l1, (a == c) = false) :
    firstIdxOf c (l1 ++ l2) = (firstIdxOf c l2).map (· + l1.length) := by
  induction l1 with
  | nil =>
    simp only [List.nil_append, List.length_nil]
    cases firstIdxOf c l2 <;> simp
  | cons x t ih =>
    have hx := h x (List.mem_cons_self x t)
    have ht : ∀ a ∈ t, (a == c) = false := fun a ha => h a (List.mem_cons_of_mem _ ha)
    rw [List.cons_append]
    rw [show firstIdxOf c (x :: (t ++ l2)) = (firstIdxOf c (t ++ l2)).map (· + 1) by
      rw [firstIdxOf, hx]
      simp]
    rw [ih ht]
    cases firstIdxOf c l2 <;> simp [Nat.add_assoc]

theorem firstIdxOf_cons_self (c : Char) (t : List Char) :
    firstIdxOf c (c :: t) = some 0 := by simp [firstIdxOf]

/-- Prose with no stray braces around one brace-delimited span: the regex
match is exactly that span. -/
theorem findJsonSpanL_concat {pre mid post : List Char}
    (hpre : ∀ a ∈ pre, (a == lbrace) = false)
    (hpost : ∀ a ∈ post, (a == rbrace) = false) :
    findJsonSpanL (pre ++ lbrace :: (mid ++ rbrace :: post))
      = some (lbrace :: (mid ++ [rbrace])) := by
  have hfirst : firstIdxOf lbrace (pre ++ lbrace :: (mid ++ rbrace :: post))
      = some pre.length := by
    rw [firstIdxOf_append_none _ hpre, firstIdxOf_cons_self]
    simp
  have hrev : (pre ++ lbrace :: (mid ++ rbrace :: post)).reverse
      = post.reverse ++ rbrace :: (mid.reverse ++ lbrace :: pre.reverse) := by
    simp
  have hlast : lastIdxOf rbrace (pre ++ lbrace :: (mid ++ rbrace :: post))
      = some (pre.length + mid.length + 1) := by
    rw [lastIdxOf, hrev,
      firstIdxOf_append_none _ (fun a ha => hpost a (by simpa using ha)),
      firstIdxOf_cons_self]
    simp only [Option.map_some', Nat.zero_add, List.length_reverse,
      List.length_append, List.length_cons]
    congr 1
    omega
  rw [findJsonSpanL, hfirst, hlast]
  have hlt : pre.length < pre.length + mid.length + 1 := by omega
  have harith : pre.length + mid.length + 1 - pre.length + 1 = mid.length + 2 := by omega
  simp only [hlt, if_true, harith]
  have hdrop : (pre ++ lbrace :: (mid ++ rbrace :: post)).drop pre.length
      = lbrace :: (mid ++ rbrace :: post) := List.drop_left pre _
  rw [hdrop]
  have hsplit : lbrace :: (mid ++ rbrace :: post)
      = (lbrace :: (mid ++ [rbrace])) ++ post := by simp
  have hlen : (lbrace :: (mid ++ [rbrace])).length = mid.length + 2 := by
    simp only [List.length_cons, List.length_append, List.length_nil]
  rw [hsplit, List.take_left' hlen]

/-- Every member of a successful loop result was appended by `processEntry`
on one of the entries. -/
theorem mem_processEntries {es : List Json} {st sid : String}
    {out : List ActionItem} {it : ActionItem}
    (h : processEntries es st sid = .ok out) (hm : it ∈ out) :
    ∃ e ∈ es, processEntry e st sid = .ok (some it) := by
  induction es generalizing out with
  | nil =>
    rw [processEntries] at h
    simp only [Except.ok.injEq] at h
    subst h
    simp at hm
  | cons e rest ih =>
    rw [processEntries] at h
    split at h
    case h_1 => exact absurd h (by simp)
    case h_2 r hr =>
      split at h
      case h_1 => exact absurd h (by simp)
      case h_2 out' hout =>
        simp only [Except.ok.injEq] at h
        subst h
        match r with
        | some it0 =>
          simp only [List.mem_cons] at hm
          rcases hm with hm | hm
          · exact ⟨e, by simp, hm ▸ hr⟩
          · obtain ⟨e', he', hpe⟩ := ih hout hm
            exact ⟨e', by simp [he'], hpe⟩
        | none =>
          obtain ⟨e', he', hpe⟩ := ih hout hm
          exact ⟨e', by simp [he'], hpe⟩

/-- A successful `_parse_llm_response` result is empty or was produced by
the entry loop. -/
theorem parse_ok_shape {resp st sid : String} {items : List ActionItem}
    (h : parse_llm_response resp st sid = .ok items) :
    items = [] ∨ ∃ es, processEntries es st sid = .ok items := by
  rw [parse_llm_response] at h
  split at h
  · simp only [Except.ok.injEq] at h; exact Or.inl h.symm
  · simp only [Except.ok.injEq] at h; exact Or.inl h.symm
  case h_3 r hne hne2 =>
    rw [parseCore.eq_def] at h
    split at h
    · simp only [Except.ok.injEq] at h; exact Or.inl h.symm
    case h_2 s hs =>
      split at h
      · simp at h
      case h_2 data hdata =>
        split at h
        case h_1 pe hget => simp at h
        case h_2 itemsVal hget =>
          split at h
          case h_1 pe hiter => simp at h
          case h_2 es hiter => exact Or.inr ⟨es, h⟩

/-- Every returned item passed the threshold filter and was built by
`processEntry`. -/
theorem mem_extract {init : Bool} {thr : ℚ} {content : String}
    {mr : Option String} {st sid : String} {it : ActionItem}
    (h : it ∈ extract_action_items init thr content mr st sid) :
    thr ≤ it.confidence ∧ ∃ e, processEntry e st sid = .ok (some it) := by
  rw [extract_action_items, extract_trace.eq_def] at h
  split at h
  · simp at h
  split at h
  · simp at h
  split at h
  · simp at h
  split at h
  · simp at h
  case h_2 resp =>
    split at h
    · simp at h
    case h_2 items hitems =>
      simp only at h
      rw [List.mem_filter] at h
      obtain ⟨hmem, hpred⟩ := h
      refine ⟨by simpa using hpred, ?_⟩
      rcases parse_ok_shape hitems with hnil | ⟨es, hes⟩
      · subst hnil; simp at hmem
      · obtain ⟨e, _, hpe⟩ := mem_processEntries hes hmem
        exact ⟨e, hpe⟩

/-! ### Claim theorems -/

set_option maxRecDepth 100000

/-- C1: for every raw model-response string containing no JSON-shaped
substring, or whose extracted substring is invalid JSON, or that parses to
an object without the `action_items` field, `_parse_llm_response` returns
`ok []` (no exception escapes it) and `extract_action_items` returns the
empty list. -/
theorem c1_malformed_output_resilience
    (init : Bool) (thr : ℚ) (content resp st sid : String)
    (h : findJsonSpan resp = none
       ∨ (∃ s, findJsonSpan resp = some s ∧ json_loads s = none)
       ∨ (∃ s fs, findJsonSpan resp = some s ∧ json_loads s = some (Json.obj fs)
            ∧ lookupLast fs "action_items" = none)) :
    parse_llm_response resp st sid = Except.ok []
      ∧ extract_action_items init thr content (some resp) st sid = [] := by
  have hp : parse_llm_response resp st sid = Except.ok [] := by
    rw [parse_llm_response, parseCore.eq_def]
    rcases h with h | ⟨s, hs, hl⟩ | ⟨s, fs, hs, hl, hk⟩
    · rw [h]
    · rw [hs]
      simp [hl]
    · rw [hs]
      simp [hl, pyDictGetD, jGetD, hk, pyIterList, processEntries]
  refine ⟨hp, ?_⟩
  rw [extract_action_items, extract_trace.eq_def]
  split
  · rfl
  split
  · rfl
  split
  · rfl
  simp [hp]

/-- C1 witness: a response with no braces at all. -/
theorem c1_witness :
    parse_llm_response "no json here" "email" "1" = Except.ok []
      ∧ extract_action_items true 1 "please" (some "no json here") "email" "1" = [] :=
  c1_malformed_output_resilience true 1 "please" "no json here" "email" "1"
    (Or.inl rfl)

/-- C2: every ActionItem the simple processor returns has confidence at or
above the configured threshold, whatever the model emitted. -/
theorem c2_threshold_invariant (init : Bool) (thr : ℚ) (content : String)
    (mr : Option String) (st sid : String) (it : ActionItem)
    (h : it ∈ extract_action_items init thr content mr st sid) :
    thr ≤ it.confidence :=
  (mem_extract h).1

/-- C2 witness: a concrete run returning one item with confidence 1. -/
theorem c2_witness :
    mkRat 7 10 ≤
      (ActionItem.mk "a" none none (Json.str "medium") 1 "" "email:1").confidence :=
  c2_threshold_invariant true (mkRat 7 10) "please"
    (some "\x7b\"action_items\":[\x7b\"task\":\"a\",\"confidence\":1\x7d]\x7d")
    "email" "1" (ActionItem.mk "a" none none (Json.str "medium") 1 "" "email:1")
    (by rw [show extract_action_items true (mkRat 7 10) "please"
        (some "\x7b\"action_items\":[\x7b\"task\":\"a\",\"confidence\":1\x7d]\x7d")
        "email" "1"
        = [ActionItem.mk "a" none none (Json.str "medium") 1 "" "email:1"] from rfl]
        exact List.mem_singleton_self _)

/-- C5: empty or whitespace-only content short-circuits: the result is empty
and the model backend is never invoked (the simple processor has no cache
stage at all, so no cache lookup can occur either). -/
theorem c5_empty_content_short_circuit (init : Bool) (thr : ℚ) (content : String)
    (mr : Option String) (st sid : String) (h : pyStrip content = "") :
    extract_action_items init thr content mr st sid = []
      ∧ (extract_trace init thr content mr st sid).calledModel = false := by
  have htr : extract_trace init thr content mr st sid = ⟨[], false⟩ := by
    rw [extract_trace.eq_def]
    cases init with
    | false => rfl
    | true =>
      rw [if_neg (by simp)]
      rw [if_pos (by simp [h])]
  exact ⟨by rw [extract_action_items, htr], by rw [htr]⟩

/-- C5 witness: a whitespace-only content string. -/
theorem c5_witness :
    extract_action_items true 1 " " none "email" "1" = []
      ∧ (extract_trace true 1 " " none "email" "1").calledModel = false :=
  c5_empty_content_short_circuit true 1 " " none "email" "1" rfl

/-- C4: no returned ActionItem has an empty or whitespace-only task (tasks
are stripped and nonempty), and a candidate entry whose task is missing,
empty, or whitespace-only never yields an appended item. -/
theorem c4_nonempty_task_invariant :
    (∀ init thr content mr st sid it,
        it ∈ extract_action_items init thr content mr st sid →
        it.task ≠ "" ∧ pyStrip it.task = it.task)
    ∧ (∀ fs st sid it,
        (lookupLast fs "task" = none
          ∨ ∃ s, lookupLast fs "task" = some (Json.str s) ∧ pyStrip s = "") →
        processEntry (Json.obj fs) st sid ≠ Except.ok (some it)) := by
  constructor
  · intro init thr content mr st sid it h
    obtain ⟨_, e, hpe⟩ := mem_extract h
    obtain ⟨fs, _, hstrip, hne, _⟩ := processEntry_ok_some hpe
    exact ⟨hne, hstrip⟩
  · intro fs st sid it hT hcontra
    obtain ⟨task, asg, conf, ctx, hTask, hAsg, hConf, hCtx, hit⟩ :=
      processEntry_build hcontra
    obtain ⟨_, _, _, hne, _⟩ := processEntry_ok_some hcontra
    rcases hT with hT | ⟨s, hT, hs⟩
    · have hv : jGetD fs "task" (Json.str "") = Json.str "" := by simp [jGetD, hT]
      rw [hv] at hTask
      simp only [pyStripJson, Except.ok.injEq] at hTask
      apply hne
      rw [hit]
      show task = ""
      rw [← hTask]
      rfl
    · have hv : jGetD fs "task" (Json.str "") = Json.str s := by simp [jGetD, hT]
      rw [hv] at hTask
      simp only [pyStripJson, Except.ok.injEq] at hTask
      apply hne
      rw [hit]
      show task = ""
      rw [← hTask, hs]

/-- C4 witness: a concrete returned item, and a whitespace-only task entry
that is rejected. -/
theorem c4_witness :
    ((ActionItem.mk "a" none none (Json.str "medium") 1 "" "email:2").task ≠ ""
      ∧ pyStrip (ActionItem.mk "a" none none (Json.str "medium") 1 "" "email:2").task
          = (ActionItem.mk "a" none none (Json.str "medium") 1 "" "email:2").task)
    ∧ processEntry (Json.obj [("task", Json.str " ")]) "email" "2"
        ≠ Except.ok (some (ActionItem.mk "a" none none (Json.str "medium") 1 "" "email:2")) :=
  ⟨c4_nonempty_task_invariant.1 true (mkRat 7 10) "please"
      (some "\x7b\"action_items\":[\x7b\"task\":\"a\",\"confidence\":1\x7d]\x7d")
      "email" "2" (ActionItem.mk "a" none none (Json.str "medium") 1 "" "email:2")
      (by rw [show extract_action_items true (mkRat 7 10) "please"
          (some "\x7b\"action_items\":[\x7b\"task\":\"a\",\"confidence\":1\x7d]\x7d")
          "email" "2"
          = [ActionItem.mk "a" none none (Json.str "medium") 1 "" "email:2"] from rfl]
          exact List.mem_singleton_self _),
   c4_nonempty_task_invariant.2 [("task", Json.str " ")] "email" "2"
      (ActionItem.mk "a" none none (Json.str "medium") 1 "" "email:2")
      (Or.inr ⟨" ", rfl, rfl⟩)⟩

/-- C10: a returned item's assignee is None or a nonempty stripped string,
and an entry whose assignee is missing, empty, or whitespace-only yields
assignee = None on the item it produces. -/
theorem c10_assignee_normalization :
    (∀ init thr content mr st sid it,
        it ∈ extract_action_items init thr content mr st sid →
        it.assignee = none ∨ ∃ a, it.assignee = some a ∧ a ≠ "" ∧ pyStrip a = a)
    ∧ (∀ fs st sid it, processEntry (Json.obj fs) st sid = Except.ok (some it) →
        (lookupLast fs "assignee" = none
          ∨ ∃ s, lookupLast fs "assignee" = some (Json.str s) ∧ pyStrip s = "") →
        it.assignee = none) := by
  constructor
  · intro init thr content mr st sid it h
    obtain ⟨_, e, hpe⟩ := mem_extract h
    obtain ⟨fs, _, _, _, _, _, ha, _⟩ := processEntry_ok_some hpe
    exact ha
  · intro fs st sid it hpe hA
    obtain ⟨task, asg, conf, ctx, hTask, hAsg, hConf, hCtx, hit⟩ :=
      processEntry_build hpe
    have hv : ∃ s, jGetD fs "assignee" (Json.str "") = Json.str s ∧ pyStrip s = "" := by
      rcases hA with hA | ⟨s, hA, hs⟩
      · exact ⟨"", by simp [jGetD, hA], rfl⟩
      · exact ⟨s, by simp [jGetD, hA], hs⟩
    obtain ⟨s, hv, hs⟩ := hv
    rw [hv] at hAsg
    simp only [pyStripJson, Except.ok.injEq] at hAsg
    rw [hit]
    show (if asg == "" then none else some asg) = none
    have hae : asg = "" := by rw [← hAsg, hs]
    simp [hae]

/-- C10 witness: a returned item with no assignee, and a whitespace-only
assignee entry normalized to None. -/
theorem c10_witness :
    ((ActionItem.mk "a" none none (Json.str "medium") 1 "" "email:3").assignee = none
      ∨ ∃ a, (ActionItem.mk "a" none none (Json.str "medium") 1 "" "email:3").assignee
          = some a ∧ a ≠ "" ∧ pyStrip a = a)
    ∧ (ActionItem.mk "b" none none (Json.str "medium") 1 "" "email:3").assignee = none :=
  ⟨c10_assignee_normalization.1 true (mkRat 7 10) "please"
      (some "\x7b\"action_items\":[\x7b\"task\":\"a\",\"confidence\":1\x7d]\x7d")
      "email" "3" (ActionItem.mk "a" none none (Json.str "medium") 1 "" "email:3")
      (by rw [show extract_action_items true (mkRat 7 10) "please"
          (some "\x7b\"action_items\":[\x7b\"task\":\"a\",\"confidence\":1\x7d]\x7d")
          "email" "3"
          = [ActionItem.mk "a" none none (Json.str "medium") 1 "" "email:3"] from rfl]
          exact List.mem_singleton_self _),
   c10_assignee_normalization.2
      [("task", Json.str "b"), ("confidence", Json.num 1), ("assignee", Json.str " ")]
      "email" "3" (ActionItem.mk "b" none none (Json.str "medium") 1 "" "email:3")
      rfl (Or.inr ⟨" ", rfl, rfl⟩)⟩

/-- C6: with nonempty (stripped) content and the processor initialized, the
model backend is skipped exactly when the content has zero action keywords
and more than 50 words; in that case the result is the empty list.
Content at or under 50 words always reaches the model stage. -/
theorem c6_relevance_prefilter_iff (thr : ℚ) (content : String)
    (mr : Option String) (st sid : String) (h : pyStrip content ≠ "") :
    ((extract_trace true thr content mr st sid).calledModel = false
      ↔ keywordCount content = 0 ∧ 50 < wordCount content)
    ∧ (keywordCount content = 0 ∧ 50 < wordCount content →
        extract_action_items true thr content mr st sid = []) := by
  have hcond : (keywordCount content == 0 && decide (50 < wordCount content)) = true
      ↔ (keywordCount content = 0 ∧ 50 < wordCount content) := by simp
  by_cases hb : keywordCount content = 0 ∧ 50 < wordCount content
  · have htr : extract_trace true thr content mr st sid = ⟨[], false⟩ := by
      rw [extract_trace.eq_def, if_neg (by simp), if_neg (by simp [h]),
        if_pos (hcond.mpr hb)]
    exact ⟨by rw [htr]; simpa using hb,
      fun _ => by rw [extract_action_items, htr]⟩
  · have hM : (extract_trace true thr content mr st sid).calledModel = true := by
      rw [extract_trace.eq_def, if_neg (by simp), if_neg (by simp [h]),
        if_neg (fun hc => hb (hcond.mp hc))]
      cases mr with
      | none => rfl
      | some resp =>
        cases hp : parse_llm_response resp st sid with
        | error pe => simp [hp]
        | ok items => simp [hp]
    exact ⟨by rw [hM]; simp [hb], fun hc => absurd hc hb⟩

/-- C6 witness: short content with no keywords still reaches the model. -/
theorem c6_witness :
    ((extract_trace true 1 "hi" none "email" "1").calledModel = false
      ↔ keywordCount "hi" = 0 ∧ 50 < wordCount "hi")
    ∧ (keywordCount "hi" = 0 ∧ 50 < wordCount "hi" →
        extract_action_items true 1 "hi" none "email" "1" = []) :=
  c6_relevance_prefilter_iff 1 "hi" none "email" "1" (by decide)

/-- C3 counterexample: a first entry whose confidence is the non-numeric
string "abc" makes `float()` raise ValueError, the response-level `except`
swallows it, and the WHOLE response is discarded: the valid second entry is
not returned (while the same second entry alone is). The claim's
per-record-discard for non-numeric confidence is false. -/
theorem c3_counterexample :
    extract_action_items true (mkRat 7 10) "please"
      (some "\x7b\"action_items\":[\x7b\"task\":\"A\",\"confidence\":\"abc\"\x7d,\x7b\"task\":\"b\",\"confidence\":1\x7d]\x7d")
      "email" "1" = []
    ∧ extract_action_items true (mkRat 7 10) "please"
      (some "\x7b\"action_items\":[\x7b\"task\":\"b\",\"confidence\":1\x7d]\x7d")
      "email" "1" = [ActionItem.mk "b" none none (Json.str "medium") 1 "" "email:1"]
    ∧ processEntry (Json.obj [("task", Json.str "A"), ("confidence", Json.str "abc")])
        "email" "1" = Except.error PyErr.valueError :=
  ⟨rfl, rfl, rfl⟩

/-- C3 amended: returned confidences always lie in [0, 1]; an entry with a
numeric out-of-range confidence is discarded individually (a skipped entry
leaves the rest of the loop unchanged); but a confidence whose float
coercion fails aborts the whole loop with ValueError, which the response
handler converts to the empty list. -/
theorem c3_confidence_validation_amended :
    (∀ init thr content mr st sid it,
        it ∈ extract_action_items init thr content mr st sid →
        0 ≤ it.confidence ∧ it.confidence ≤ 1)
    ∧ (∀ e es st sid, processEntry e st sid = Except.ok none →
        processEntries (e :: es) st sid = processEntries es st sid)
    ∧ (∀ e es st sid pe, processEntry e st sid = Except.error pe →
        processEntries (e :: es) st sid = Except.error pe)
    ∧ (∀ resp st sid, parseCore resp st sid = Except.error PyErr.valueError →
        parse_llm_response resp st sid = Except.ok []) := by
  refine ⟨?_, ?_, ?_, ?_⟩
  · intro init thr content mr st sid it h
    obtain ⟨_, e, hpe⟩ := mem_extract h
    obtain ⟨fs, _, _, _, h0, h1, _⟩ := processEntry_ok_some hpe
    exact ⟨h0, h1⟩
  · intro e es st sid hpe
    rw [processEntries, hpe]
    cases hrest : processEntries es st sid <;> simp [hrest]
  · intro e es st sid pe hpe
    rw [processEntries, hpe]
  · intro resp st sid hc
    rw [parse_llm_response, hc]

/-- C3 witness: each amended conjunct at a concrete input. -/
theorem c3_witness :
    (0 ≤ (ActionItem.mk "c" none none (Json.str "medium") (mkRat 9 10) "" "email:1").confidence
      ∧ (ActionItem.mk "c" none none (Json.str "medium") (mkRat 9 10) "" "email:1").confidence ≤ 1)
    ∧ processEntries
        [Json.obj [("task", Json.str "x"), ("confidence", Json.num 2)],
         Json.obj [("task", Json.str "c"), ("confidence", Json.num (mkRat 9 10))]]
        "email" "1"
      = processEntries
        [Json.obj [("task", Json.str "c"), ("confidence", Json.num (mkRat 9 10))]]
        "email" "1"
    ∧ processEntries [Json.obj [("task", Json.str "x"), ("confidence", Json.str "zz")]]
        "email" "1" = Except.error PyErr.valueError
    ∧ parse_llm_response "\x7bnot json\x7d" "email" "1" = Except.ok [] :=
  ⟨c3_confidence_validation_amended.1 true (mkRat 7 10) "please"
      (some "\x7b\"action_items\":[\x7b\"task\":\"c\",\"confidence\":0.9\x7d]\x7d")
      "email" "1"
      (ActionItem.mk "c" none none (Json.str "medium") (mkRat 9 10) "" "email:1")
      (by rw [show extract_action_items true (mkRat 7 10) "please"
          (some "\x7b\"action_items\":[\x7b\"task\":\"c\",\"confidence\":0.9\x7d]\x7d")
          "email" "1"
          = [ActionItem.mk "c" none none (Json.str "medium") (mkRat 9 10) "" "email:1"]
          from rfl]
          exact List.mem_singleton_self _),
   c3_confidence_validation_amended.2.1
      (Json.obj [("task", Json.str "x"), ("confidence", Json.num 2)])
      [Json.obj [("task", Json.str "c"), ("confidence", Json.num (mkRat 9 10))]]
      "email" "1" rfl,
   c3_confidence_validation_amended.2.2.1
      (Json.obj [("task", Json.str "x"), ("confidence", Json.str "zz")])
      [] "email" "1" PyErr.valueError rfl,
   c3_confidence_validation_amended.2.2.2 "\x7bnot json\x7d" "email" "1" rfl⟩

/-- C9 counterexample: a priority the enum does not contain ("banana") is
passed through verbatim onto the returned item — it is neither normalized
to "medium" nor restricted to the recognized values. -/
theorem c9_counterexample :
    extract_action_items true (mkRat 7 10) "please"
      (some "\x7b\"action_items\":[\x7b\"task\":\"a\",\"confidence\":1,\"priority\":\"banana\"\x7d]\x7d")
      "email" "1"
      = [ActionItem.mk "a" none none (Json.str "banana") 1 "" "email:1"]
    ∧ Json.str "banana" ≠ Json.str "low" ∧ Json.str "banana" ≠ Json.str "medium"
    ∧ Json.str "banana" ≠ Json.str "high" ∧ Json.str "banana" ≠ Json.str "urgent" :=
  ⟨rfl, by simp, by simp, by simp, by simp⟩

/-- C9 amended: the priority of a produced item is exactly the entry's
priority value when the key is present — whatever it is — and the string
"medium" only when the key is absent. -/
theorem c9_priority_passthrough_amended (fs : List (String × Json))
    (st sid : String) (it : ActionItem)
    (h : processEntry (Json.obj fs) st sid = Except.ok (some it)) :
    it.priority = (lookupLast fs "priority").getD (Json.str "medium") := by
  obtain ⟨fs2, heq, _, _, _, _, _, hpri⟩ := processEntry_ok_some h
  injection heq with hfs
  subst hfs
  exact hpri

/-- C9 witness: the "banana" priority entry. -/
theorem c9_witness :
    (ActionItem.mk "a" none none (Json.str "banana") 1 "" "email:4").priority
      = (lookupLast [("task", Json.str "a"), ("confidence", Json.num 1),
          ("priority", Json.str "banana")] "priority").getD (Json.str "medium") :=
  c9_priority_passthrough_amended
    [("task", Json.str "a"), ("confidence", Json.num 1), ("priority", Json.str "banana")]
    "email" "4" (ActionItem.mk "a" none none (Json.str "banana") 1 "" "email:4") rfl

/-- C8 counterexample: with two JSON objects in the response, the regex
span runs from the first brace-open to the LAST brace-close — covering both
objects and the prose between them — the parse of that span fails, and the
result is []. The first balanced object alone would have produced one item,
so "only the first match is considered" is false of the code. -/
theorem c8_counterexample :
    firstBalancedJsonObject
        "\x7b\"action_items\":[\x7b\"task\":\"a\",\"confidence\":1\x7d]\x7d and \x7b\"x\":1\x7d"
      = some "\x7b\"action_items\":[\x7b\"task\":\"a\",\"confidence\":1\x7d]\x7d"
    ∧ extract_action_items true (mkRat 7 10) "please"
        (some "\x7b\"action_items\":[\x7b\"task\":\"a\",\"confidence\":1\x7d]\x7d")
        "email" "5"
      = [ActionItem.mk "a" none none (Json.str "medium") 1 "" "email:5"]
    ∧ findJsonSpan
        "\x7b\"action_items\":[\x7b\"task\":\"a\",\"confidence\":1\x7d]\x7d and \x7b\"x\":1\x7d"
      = some "\x7b\"action_items\":[\x7b\"task\":\"a\",\"confidence\":1\x7d]\x7d and \x7b\"x\":1\x7d"
    ∧ json_loads
        "\x7b\"action_items\":[\x7b\"task\":\"a\",\"confidence\":1\x7d]\x7d and \x7b\"x\":1\x7d"
      = none
    ∧ extract_action_items true (mkRat 7 10) "please"
        (some "\x7b\"action_items\":[\x7b\"task\":\"a\",\"confidence\":1\x7d]\x7d and \x7b\"x\":1\x7d")
        "email" "5" = [] :=
  ⟨rfl, rfl, rfl, rfl, rfl⟩

/-- C8 amended: the span the parser feeds to `json.loads` is the substring
from the first brace-open to the last brace-close — prose before the span
without opening braces and after it without closing braces is tolerated
verbatim — and a response with no such span parses to no items and
extraction returns the empty list without an error. -/
theorem c8_json_span_amended (pre mid post : String)
    (hpre : ∀ a ∈ pre.data, (a == lbrace) = false)
    (hpost : ∀ a ∈ post.data, (a == rbrace) = false) :
    findJsonSpan (pre ++ String.singleton lbrace ++ mid ++ String.singleton rbrace ++ post)
      = some (String.singleton lbrace ++ mid ++ String.singleton rbrace)
    ∧ (∀ resp st sid init thr content, findJsonSpan resp = none →
        parse_llm_response resp st sid = Except.ok []
          ∧ extract_action_items init thr content (some resp) st sid = []) := by
  constructor
  · rw [findJsonSpan]
    have hdata :
        (pre ++ String.singleton lbrace ++ mid ++ String.singleton rbrace ++ post).data
        = pre.data ++ lbrace :: (mid.data ++ rbrace :: post.data) := by
      simp [String.data_append, String.singleton, List.append_assoc]
    rw [hdata, findJsonSpanL_concat hpre hpost]
    simp only [Option.map_some']
    congr 1
  · intro resp st sid init thr content hn
    have hp : parse_llm_response resp st sid = Except.ok [] := by
      rw [parse_llm_response, parseCore.eq_def, hn]
    refine ⟨hp, ?_⟩
    rw [extract_action_items, extract_trace.eq_def]
    split
    · rfl
    split
    · rfl
    split
    · rfl
    simp [hp]

/-- C8 witness: prose around one object, and a brace-free response. -/
theorem c8_witness :
    findJsonSpan
        ("Sure: " ++ String.singleton lbrace ++ "\"x\": 1" ++ String.singleton rbrace ++ " done")
      = some (String.singleton lbrace ++ "\"x\": 1" ++ String.singleton rbrace)
    ∧ parse_llm_response "no braces" "email" "1" = Except.ok []
    ∧ extract_action_items true 1 "please" (some "no braces") "email" "1" = [] :=
  ⟨(c8_json_span_amended "Sure: " "\"x\": 1" " done" (by decide) (by decide)).1,
   ((c8_json_span_amended "Sure: " "\"x\": 1" " done" (by decide) (by decide)).2
      "no braces" "email" "1" true 1 "please" rfl).1,
   ((c8_json_span_amended "Sure: " "\"x\": 1" " done" (by decide) (by decide)).2
      "no braces" "email" "1" true 1 "please" rfl).2⟩

/-- C7 (code bug): the cached extraction result is not returned verbatim.
`json.dumps(..., default=str)` stores each ActionItemCreate as its repr
string, so a second identical call within the TTL is served from the cache
as a list of plain strings — not bit-identical to (and of a different
element type than) the first call's list, contradicting the function's
`-> List[ActionItemCreate]` annotation and its cache docstrings. -/
theorem c7_cache_roundtrip_divergence :
    (extract_action_items_full [] 0 "please complete it" "email"
        (some "\x7b\"action_items\":[\x7b\"task\":\"do it\",\"confidence\":1\x7d]\x7d")).result
      = [PyObj.item (ItemCreate.mk "do it" none none Priority.medium 1 (some ""))]
    ∧ (extract_action_items_full
          (extract_action_items_full [] 0 "please complete it" "email"
            (some "\x7b\"action_items\":[\x7b\"task\":\"do it\",\"confidence\":1\x7d]\x7d")).cache
          0 "please complete it" "email"
          (some "\x7b\"action_items\":[\x7b\"task\":\"do it\",\"confidence\":1\x7d]\x7d")).result
      = [PyObj.raw (Json.str (pyReprItemCreate
          (ItemCreate.mk "do it" none none Priority.medium 1 (some ""))))]
    ∧ (extract_action_items_full
          (extract_action_items_full [] 0 "please complete it" "email"
            (some "\x7b\"action_items\":[\x7b\"task\":\"do it\",\"confidence\":1\x7d]\x7d")).cache
          0 "please complete it" "email"
          (some "\x7b\"action_items\":[\x7b\"task\":\"do it\",\"confidence\":1\x7d]\x7d")).calledModel
      = false
    ∧ [PyObj.item (ItemCreate.mk "do it" none none Priority.medium 1 (some ""))]
      ≠ [PyObj.raw (Json.str (pyReprItemCreate
          (ItemCreate.mk "do it" none none Priority.medium 1 (some ""))))] :=
  ⟨rfl, rfl, rfl, by simp⟩

end TaskHarvester
